import Mathlib

/-!
Verification of the codeai terminal client (`src/codeai/tux.py`): a shallow
embedding of the interactive session loop, the streaming-event consumer, the
slash-command registry and the session statistics, together with theorems
about the claims of the specification.

Conventions of the embedding:
* Pure dataclasses become Lean structures with the same field names.
* The streaming consumer of `CodeAITux.send_message` becomes a step function
  `processEvent` on an explicit `TurnState`, folded over the list of events
  delivered by the agent connection.  The Python local `current_tool_call`
  aliases an element of `self.tool_calls`; the embedding represents it by the
  index of that element (`current : Option Nat`).
* Fallible external collaborators (connecting, the event stream, the
  token-usage snapshot fetch, the server-side context reset) are abstracted
  by explicit parameters describing their outcome; rendering to the terminal
  is outside the model.
-/

namespace CodeAI

/-- `SessionStats` dataclass (tux.py). All counters start at zero. -/
structure SessionStats where
  total_input_tokens : Nat := 0
  total_output_tokens : Nat := 0
  total_requests : Nat := 0
  messages : Nat := 0
  tool_calls : Nat := 0
deriving Repr, DecidableEq

/-- `SessionStats.total_tokens` property. -/
def SessionStats.total_tokens (s : SessionStats) : Nat :=
  s.total_input_tokens + s.total_output_tokens

/-- `ToolCallInfo` dataclass (tux.py): one tool invocation within a turn. -/
structure ToolCallInfo where
  tool_call_id : String
  tool_name : String
  args_json : String := ""
  result : Option String := none
  status : String := "in_progress"
  expanded : Bool := false
deriving Repr, DecidableEq

/-- The AG-UI events consumed by `send_message`.  Field values that the wire
protocol makes optional are `Option`s; the consumer applies `or ""` /
`or "tool"` defaults exactly as the Python does.  The consumer reads no id
from `TOOL_CALL_ARGS` and `TOOL_CALL_END` events, but the protocol carries
one; it is kept here so that ordering preconditions can be stated. -/
inductive Event where
  | textMessageContent (delta : Option String)
  | toolCallStart (tool_call_id : Option String) (tool_name : Option String)
  | toolCallArgs (tool_call_id : Option String) (tool_args : Option String)
  | toolCallEnd (tool_call_id : Option String)
  | toolCallResult (tool_call_id : Option String) (tool_result : Option String)
  | runFinished
  | runError (message : String)
deriving Repr, DecidableEq

/-- The response from the `context-snapshot` endpoint, as read by
`send_message` and `run`.  Token sums default to 0 when absent (Python
`data.get(key, 0)`), so they are plain naturals; `modelName` and
`contextWindow` keep their prior values when absent. -/
structure Snapshot where
  sumResponseInputTokens : Nat := 0
  sumResponseOutputTokens : Nat := 0
  modelName : Option String := none
  contextWindow : Option Nat := none
deriving Repr, DecidableEq

/-- The session-scoped mutable fields of `CodeAITux` that the claims are
about.  The persistent AG-UI client is reduced to the presence of a handle
(`Option Unit`). -/
structure TuxState where
  stats : SessionStats := {}
  tool_calls : List ToolCallInfo := []
  agui_client : Option Unit := none
  model_name : String := "unknown"
  context_window : Nat := 128000
  running : Bool := false
deriving Repr, DecidableEq

/-- The state threaded through the event-consumption loop of one turn:
the accumulated response text, the turn's tool-call list (`self.tool_calls`
after its reset), the session stats (mutated in the loop via
`self.stats.tool_calls += 1`) and the index of the in-flight tool call
(`current_tool_call`, which in Python aliases an element of the list). -/
structure TurnState where
  response_text : String
  tool_calls : List ToolCallInfo
  stats : SessionStats
  current : Option Nat
deriving Repr, DecidableEq

/-- Replace the element at index `i` by `f` of it; out-of-range indices leave
the list unchanged.  Models in-place mutation of a list element through an
alias. -/
def listModify {α : Type} : List α → Nat → (α → α) → List α
  | [], _, _ => []
  | a :: l, 0, f => f a :: l
  | a :: l, n + 1, f => a :: listModify l n f

/-- The `TOOL_CALL_RESULT` handler's linear scan: set `result` and
`status := "complete"` on the first record whose id matches, leave the rest
alone (the Python loop `break`s after the first match). -/
def setResultFirst : List ToolCallInfo → String → String → List ToolCallInfo
  | [], _, _ => []
  | tc :: l, tid, res =>
    if tc.tool_call_id = tid then
      { tc with result := some res, status := "complete" } :: l
    else
      tc :: setResultFirst l tid res

/-- One iteration of the `async for event in client.run(message)` loop of
`send_message` (tux.py lines 1012-1072).  Returns the next state and whether
the loop `break`s. -/
def processEvent (ts : TurnState) : Event → TurnState × Bool
  | .textMessageContent d =>
      ({ ts with response_text := ts.response_text ++ d.getD "" }, false)
  | .toolCallStart tid tname =>
      let tc : ToolCallInfo :=
        { tool_call_id := tid.getD "", tool_name := tname.getD "tool" }
      ({ ts with
          tool_calls := ts.tool_calls ++ [tc],
          current := some ts.tool_calls.length,
          stats := { ts.stats with tool_calls := ts.stats.tool_calls + 1 } },
       false)
  | .toolCallArgs _ d =>
      match ts.current with
      | none => (ts, false)
      | some i =>
          ({ ts with
              tool_calls := listModify ts.tool_calls i
                (fun tc => { tc with args_json := tc.args_json ++ d.getD "" }) },
           false)
  | .toolCallEnd _ => (ts, false)
  | .toolCallResult tid res =>
      ({ ts with
          tool_calls := setResultFirst ts.tool_calls (tid.getD "") (res.getD ""),
          current := none },
       false)
  | .runFinished => (ts, true)
  | .runError _ =>
      (match ts.current with
       | some i =>
           { ts with
              tool_calls := listModify ts.tool_calls i
                (fun tc => { tc with status := "error" }) }
       | none => ts,
       true)

/-- Fold `processEvent` over the delivered events, stopping at the first
event whose handler `break`s.  The second component records whether a break
occurred. -/
def runEventsB : TurnState → List Event → TurnState × Bool
  | ts, [] => (ts, false)
  | ts, e :: es =>
      let r := processEvent ts e
      if r.2 then (r.1, true) else runEventsB r.1 es

/-- The turn state at entry of the streaming loop: `self.stats.messages += 1`
and `self.tool_calls = []` have already run (tux.py lines 987-988), the
response buffer is empty and no tool call is in flight. -/
def turnInit (st : TuxState) : TurnState :=
  { response_text := ""
    tool_calls := []
    stats := { st.stats with messages := st.stats.messages + 1 }
    current := none }

/-- `CodeAITux.send_message` (tux.py lines 982-1114).
`connectOk` is whether `AGUIClient.connect()` succeeds when a connection has
to be created (the client object is assigned to `self._agui_client` before
`connect()` can raise, so the handle is non-null even on failure);
`delivered` are the events the stream yields before either ending or raising;
`streamOk` is whether the stream ends without raising (irrelevant once a
terminal event broke the loop); `fetch` is the result of the best-effort
usage-snapshot request, `none` meaning an exception or a non-200 status. -/
def send_message (st : TuxState) (connectOk : Bool) (delivered : List Event)
    (streamOk : Bool) (fetch : Option Snapshot) : TuxState :=
  let stats1 : SessionStats := { st.stats with messages := st.stats.messages + 1 }
  let client1 : Option Unit := if st.agui_client.isNone then some () else st.agui_client
  let base : TuxState :=
    { st with stats := stats1, tool_calls := [], agui_client := client1 }
  if st.agui_client.isNone && !connectOk then
    -- `connect()` raised: except-branch prints, session keeps the partial state
    base
  else
    let r := runEventsB (turnInit st) delivered
    let st3 : TuxState := { base with stats := r.1.stats, tool_calls := r.1.tool_calls }
    if !r.2 && !streamOk then
      -- the stream raised mid-iteration: except-branch prints, turn aborts
      st3
    else
      match fetch with
      | none =>
          -- fetch failed: the locals input_tokens/output_tokens are still 0
          -- (initialized at lines 1009-1010) and are assigned to the stats
          { st3 with stats :=
              { st3.stats with total_input_tokens := 0, total_output_tokens := 0 } }
      | some d =>
          { st3 with
              stats := { st3.stats with
                total_input_tokens := d.sumResponseInputTokens,
                total_output_tokens := d.sumResponseOutputTokens },
              model_name :=
                (match d.modelName with
                 | some m => if m = "" then st3.model_name else m
                 | none => st3.model_name),
              context_window := d.contextWindow.getD st3.context_window }

/-- Whether the turn is aborted by a connection-level exception: either
`connect()` raised, or the stream raised before any terminal event was
consumed. -/
def turnAborted (st : TuxState) (connectOk : Bool) (delivered : List Event)
    (streamOk : Bool) : Bool :=
  (st.agui_client.isNone && !connectOk) ||
    (!(runEventsB (turnInit st) delivered).2 && !streamOk)

/-- The events actually consumed by an aborted turn: none when `connect()`
raised, all delivered events when the stream raised at its end. -/
def consumedEvents (st : TuxState) (connectOk : Bool) (delivered : List Event) :
    List Event :=
  if st.agui_client.isNone && !connectOk then [] else delivered

/-- Number of `TOOL_CALL_START` events in a list. -/
def countStarts : List Event → Nat
  | [] => 0
  | .toolCallStart _ _ :: es => countStarts es + 1
  | _ :: es => countStarts es

/-- `CodeAITux._cmd_clear` (tux.py lines 560-577).  `resetOk` is whether the
server-side context reset POST succeeds; on failure the handler prints an
error and returns before touching any session state.  On success it
disconnects and nulls the AG-UI client and replaces the stats wholesale. -/
def cmd_clear (st : TuxState) (resetOk : Bool) : TuxState :=
  if !resetOk then st
  else { st with agui_client := none, stats := {} }

/-- What `CodeAITux._cmd_tools_last` displays: `none` for the
"No tool calls in the last response" notice, otherwise the retained records
of the last turn. -/
def toolsLastView (st : TuxState) : Option (List ToolCallInfo) :=
  if st.tool_calls.isEmpty then none else some st.tool_calls

/-! ### Slash commands and the registry -/

/-- `SlashCommand` dataclass.  The handler is reduced to an identifying tag
(the Python method or module implementing it); handler bodies are outside
the dispatch model. -/
structure SlashCommand where
  name : String
  aliases : List String := []
  description : String := ""
  handler : Option String := none
  shortcut : Option String := none
deriving Repr, DecidableEq

/-- Python `dict` assignment `d[k] = v`: replace the value when the key is
present, otherwise append the pair. -/
def dictInsert (d : List (String × SlashCommand)) (k : String) (v : SlashCommand) :
    List (String × SlashCommand) :=
  if d.any (fun p => p.1 = k) then
    d.map (fun p => if p.1 = k then (k, v) else p)
  else
    d ++ [(k, v)]

/-- Python `k in d` / `d[k]` lookup. -/
def dictGet (d : List (String × SlashCommand)) (k : String) : Option SlashCommand :=
  match d.find? (fun p => p.1 = k) with
  | some p => some p.2
  | none => none

/-- The registration loop at the end of `_register_commands` / of
`build_commands`: `commands[cmd.name] = cmd` then `commands[alias] = cmd`
for each alias, over the command list in order. -/
def registerAll (cmds : List SlashCommand) : List (String × SlashCommand) :=
  cmds.foldl
    (fun d c => c.aliases.foldl (fun d' a => dictInsert d' a c) (dictInsert d c.name c))
    []

/-- The command list built by `CodeAITux._register_commands` (tux.py lines
223-360), in source order, parameterized on the `eggs` flag and on whether a
Jupyter URL is set. -/
def tuxCommands (eggs jupyter : Bool) : List SlashCommand :=
  [ { name := "context",
      description := "Visualize current context usage as a colored grid",
      handler := some "_cmd_context", shortcut := some "escape x" },
    { name := "clear", aliases := ["reset", "new"],
      description := "Clear conversation history and free up context",
      handler := some "_cmd_clear", shortcut := some "escape c" },
    { name := "help", aliases := ["?"],
      description := "Show available commands",
      handler := some "_cmd_help", shortcut := some "escape h" },
    { name := "status",
      description := "Show Code AI status including model, tokens, and connectivity",
      handler := some "_cmd_status", shortcut := some "escape s" },
    { name := "exit", aliases := ["quit", "q"],
      description := "Exit Code AI",
      handler := some "_cmd_exit", shortcut := some "escape q" },
    { name := "agents",
      description := "List available agents on the server",
      handler := some "_cmd_agents", shortcut := some "escape a" },
    { name := "tools",
      description := "List available tools for the current agent",
      handler := some "_cmd_tools", shortcut := some "escape t" },
    { name := "mcp-servers", aliases := ["mcp"],
      description := "List MCP servers and their status",
      handler := some "_cmd_mcp_servers", shortcut := some "escape m" },
    { name := "skills",
      description := "List available skills (requires codemode enabled)",
      handler := some "_cmd_skills", shortcut := some "escape k" },
    { name := "codemode-toggle", aliases := ["codemode"],
      description := "Toggle codemode on/off for enhanced code capabilities",
      handler := some "_cmd_codemode_toggle", shortcut := some "escape o" },
    { name := "context-export", aliases := ["export"],
      description := "Export the current context to a CSV file",
      handler := some "_cmd_context_export", shortcut := some "escape e" },
    { name := "tools-last", aliases := ["tl"],
      description := "Show details of tool calls from last response",
      handler := some "_cmd_tools_last", shortcut := some "escape l" },
    { name := "cls",
      description := "Clear the screen",
      handler := some "_cmd_cls" } ]
  ++ (if eggs then
        [ { name := "rain", description := "Matrix rain animation",
            handler := some "_cmd_rain", shortcut := some "escape r" },
          { name := "about", description := "About Datalayer",
            handler := some "_cmd_about", shortcut := some "escape l" },
          { name := "gif", description := "Black hole spinning animation",
            handler := some "_cmd_gif", shortcut := some "escape g" } ]
      else [])
  ++ (if jupyter then
        [ { name := "jupyter",
            description := "Open the Jupyter server in your browser",
            handler := some "_cmd_jupyter", shortcut := some "escape j" } ]
      else [])
  ++ [ { name := "browser",
         description := "Open the Agent chat UI in your browser",
         handler := some "_cmd_browser", shortcut := some "escape w" } ]

/-- The registry `self.commands` of `CodeAITux`. -/
def tuxRegistry (eggs jupyter : Bool) : List (String × SlashCommand) :=
  registerAll (tuxCommands eggs jupyter)

/-- The command list assembled by `codeai.commands.build_commands`
(commands/\_\_init\_\_.py), whose handlers follow the package contract
`execute(tux) -> Optional[str]` — "returns optional next prompt".  It
includes the `/suggestions` command whose handler returns the suggestion the
user picked. -/
def packageCommands (eggs jupyter : Bool) : List SlashCommand :=
  [ { name := "context",
      description := "Visualize current context usage as a colored grid",
      handler := some "context.execute", shortcut := some "escape x" },
    { name := "clear", aliases := ["reset", "new"],
      description := "Clear conversation history and free up context",
      handler := some "clear.execute", shortcut := some "escape c" },
    { name := "help", aliases := ["?"],
      description := "Show available commands",
      handler := some "help.execute", shortcut := some "escape h" },
    { name := "status",
      description := "Show Code AI status including model, tokens, and connectivity",
      handler := some "status.execute", shortcut := some "escape s" },
    { name := "exit", aliases := ["quit", "q"],
      description := "Exit Code AI",
      handler := some "exit.execute", shortcut := some "escape q" },
    { name := "agents",
      description := "List available agents on the server",
      handler := some "agents.execute", shortcut := some "escape a" },
    { name := "tools",
      description := "List available tools for the current agent",
      handler := some "tools.execute", shortcut := some "escape t" },
    { name := "mcp-servers", aliases := ["mcp"],
      description := "List MCP servers and their status",
      handler := some "mcp_servers.execute", shortcut := some "escape m" },
    { name := "skills",
      description := "List available skills (requires codemode enabled)",
      handler := some "skills.execute", shortcut := some "escape k" },
    { name := "codemode-toggle", aliases := ["codemode"],
      description := "Toggle codemode on/off for enhanced code capabilities",
      handler := some "codemode_toggle.execute", shortcut := some "escape o" },
    { name := "context-export", aliases := ["export"],
      description := "Export the current context to a CSV file",
      handler := some "context_export.execute", shortcut := some "escape e" },
    { name := "tools-last", aliases := ["tl"],
      description := "Show details of tool calls from last response",
      handler := some "tools_last.execute", shortcut := some "escape l" },
    { name := "cls",
      description := "Clear the screen",
      handler := some "cls.execute" },
    { name := "browser",
      description := "Open the Agent chat UI in your browser",
      handler := some "browser.execute", shortcut := some "escape w" },
    { name := "suggestions", aliases := ["suggest"],
      description := "List available suggestions and pick one as next prompt",
      handler := some "suggestions.execute", shortcut := some "escape u" } ]
  ++ (if eggs then
        [ { name := "rain", description := "Matrix rain animation",
            handler := some "rain.execute", shortcut := some "escape r" },
          { name := "about", description := "About Datalayer",
            handler := some "about.execute", shortcut := some "escape l" },
          { name := "gif", description := "Black hole spinning animation",
            handler := some "gif.execute", shortcut := some "escape g" } ]
      else [])
  ++ (if jupyter then
        [ { name := "jupyter",
            description := "Open the Jupyter server in your browser",
            handler := some "jupyter.execute", shortcut := some "escape j" } ]
      else [])

/-- The registry returned by `codeai.commands.build_commands`. -/
def packageRegistry (eggs jupyter : Bool) : List (String × SlashCommand) :=
  registerAll (packageCommands eggs jupyter)

/-! ### Input-line routing -/

/-- Python whitespace as split by `str.split` on the inputs the client sees. -/
def wsChar (c : Char) : Bool :=
  c = ' ' || c = '\t' || c = '\n' || c = '\r'

/-- Python `str.lower` on the ASCII range (command names are ASCII). -/
def lowerChar (c : Char) : Char :=
  if 65 ≤ c.toNat && c.toNat ≤ 90 then Char.ofNat (c.toNat + 32) else c

/-- `str.lower` over a whole string. -/
def strLower (s : String) : String :=
  ⟨s.data.map lowerChar⟩

/-- `user_input[1:].split(maxsplit=1)` followed by `parts[0] if parts else ""`
(handle_command, tux.py lines 967-968): drop the command marker, skip
leading whitespace, take the first whitespace-delimited token. -/
def cmdTokenOf (user_input : String) : String :=
  ⟨((user_input.data.drop 1).dropWhile (fun c => wsChar c)).takeWhile
      (fun c => !wsChar c)⟩

/-- Whether the input line starts with the command marker. -/
def startsSlash (user_input : String) : Bool :=
  match user_input.data with
  | '/' :: _ => true
  | _ => false

/-- The registry lookup performed by `handle_command` on a command line:
case-fold the first token and look it up among names and aliases. -/
def resolveCommand (reg : List (String × SlashCommand)) (user_input : String) :
    Option SlashCommand :=
  dictGet reg (strLower (cmdTokenOf user_input))

/-- `CodeAITux.handle_command` (tux.py lines 959-980).  Returns whether a
command was handled.  The handler is awaited and its return value is
discarded (`await cmd.handler()` on line 974); the unknown-command branch
prints a notice.  Both branches return `True`. -/
def handle_command (reg : List (String × SlashCommand)) (user_input : String) :
    Bool :=
  if !startsSlash user_input then false
  else
    match resolveCommand reg user_input with
    | some _ => true
    | none => true

/-- What one iteration of `CodeAITux.run` (tux.py lines 1222-1233) does with
a line of input. -/
inductive LoopAction where
  | idle
  | command (handled : Bool)
  | message (m : String)
deriving Repr, DecidableEq

/-- The routing of `CodeAITux.run`: empty input loops, a line starting with
the command marker goes to `handle_command` (whose Boolean result `run`
ignores), anything else is sent as a message. -/
def routeInput (reg : List (String × SlashCommand)) (user_input : String) :
    LoopAction :=
  if user_input = "" then .idle
  else if startsSlash user_input then .command (handle_command reg user_input)
  else .message user_input

/-- The messages handed to `send_message` during one loop iteration of
`CodeAITux.run` for the given input line. -/
def sentMessages (reg : List (String × SlashCommand)) (user_input : String) :
    List String :=
  match routeInput reg user_input with
  | .message m => [m]
  | _ => []

/-- Checker for the registry invariant: the primary name and every alias of
every command resolve to that same command object. -/
def aliasOK (cmds : List SlashCommand) (reg : List (String × SlashCommand)) :
    Bool :=
  cmds.all fun c =>
    decide (dictGet reg c.name = some c) &&
    c.aliases.all (fun a => decide (dictGet reg a = some c))

/-! ### Event-stream shapes for the argument-accumulation property -/

/-- Whether an event is a `TOOL_CALL_START`. -/
def isStartEvent : Event → Bool
  | .toolCallStart _ _ => true
  | _ => false

/-- Whether an event is a `TOOL_CALL_ARGS`. -/
def isArgsEvent : Event → Bool
  | .toolCallArgs _ _ => true
  | _ => false

/-- Whether an event terminates the consumption loop. -/
def isTerminalEvent : Event → Bool
  | .runFinished => true
  | .runError _ => true
  | _ => false

/-- The stored ids of the tool calls started in a stream, in order (the
consumer stores `event.tool_call_id or ""`). -/
def startIds : List Event → List String
  | [] => []
  | .toolCallStart i _ :: es => i.getD "" :: startIds es
  | _ :: es => startIds es

/-- The concatenation, in arrival order, of the args-delta payloads carried
by events whose id is `i`. -/
def deltasFor (i : String) : List Event → String
  | [] => ""
  | .toolCallArgs j d :: es =>
      (if j.getD "" = i then d.getD "" else "") ++ deltasFor i es
  | _ :: es => deltasFor i es

/-- The concatenation of all args-delta payloads in a stream, whatever their
id — this is what the consumer actually appends to the in-flight record. -/
def argsConcat : List Event → String
  | [] => ""
  | .toolCallArgs _ d :: es => d.getD "" ++ argsConcat es
  | _ :: es => argsConcat es

/-- The concatenation of all text-delta payloads in a stream. -/
def textConcat : List Event → String
  | [] => ""
  | .textMessageContent d :: es => d.getD "" ++ textConcat es
  | _ :: es => textConcat es

/-- The `args_json` strings of the records with id `i`, in list order.  A
stream handled correctly gives `[the concatenated deltas of i]`. -/
def argsOf (i : String) (l : List ToolCallInfo) : List String :=
  (l.filter (fun r => r.tool_call_id = i)).map (fun r => r.args_json)

/-- Events allowed between a tool call's start and its argument deltas:
text deltas, and args deltas carrying that call's id. -/
def midEvent (i : String) : Event → Bool
  | .textMessageContent _ => true
  | .toolCallArgs j _ => j.getD "" = i
  | _ => false

/-- The ordering precondition exactly as the claim states it: every
`TOOL_CALL_ARGS` event for an id has a `TOOL_CALL_START` for that id at an
earlier position and a `TOOL_CALL_END` for that id at a later position. -/
def claimOrdering (evs : List Event) : Bool :=
  (List.range evs.length).all fun k =>
    match evs.get? k with
    | some (.toolCallArgs i _) =>
        ((List.range k).any fun j =>
          match evs.get? j with
          | some (.toolCallStart i' _) => i'.getD "" = i.getD ""
          | _ => false) &&
        ((List.range evs.length).any fun m =>
          k < m &&
          match evs.get? m with
          | some (.toolCallEnd i') => i'.getD "" = i.getD ""
          | _ => false)
    | _ => true

/-- Event streams whose tool calls are sequential: each call's argument
deltas directly follow its start (only text deltas interspersed) before any
other tool-call or terminal event, started ids are distinct, and nothing
tool-related follows a terminal event.  `TOOL_CALL_END` and
`TOOL_CALL_RESULT` events close the window and may appear anywhere outside
one. -/
inductive SeqStream : List Event → Prop
  | nil : SeqStream []
  | text (d : Option String) (es : List Event) :
      SeqStream es → SeqStream (.textMessageContent d :: es)
  | endEv (i : Option String) (es : List Event) :
      SeqStream es → SeqStream (.toolCallEnd i :: es)
  | resultEv (i r : Option String) (es : List Event) :
      SeqStream es → SeqStream (.toolCallResult i r :: es)
  | finishedEv (es : List Event) :
      es.all (fun e => !isStartEvent e && !isArgsEvent e) = true →
      SeqStream (.runFinished :: es)
  | errorEv (m : String) (es : List Event) :
      es.all (fun e => !isStartEvent e && !isArgsEvent e) = true →
      SeqStream (.runError m :: es)
  | episode (i n : Option String) (mid es : List Event) :
      mid.all (midEvent (i.getD "")) = true →
      i.getD "" ∉ startIds es →
      SeqStream es →
      SeqStream (.toolCallStart i n :: (mid ++ es))

/-! ### Concrete instances used to witness or refute claims -/

/-- A session state before a turn with nonzero token counters and a live
connection. -/
def preTurnTokens : TuxState :=
  { stats := { total_input_tokens := 100, total_output_tokens := 50,
               total_requests := 2, messages := 3, tool_calls := 1 },
    agui_client := some () }

/-- A session state before a turn with a retained tool-call record from the
previous turn and no live connection. -/
def preTurnWithTools : TuxState :=
  { tool_calls := [{ tool_call_id := "9", tool_name := "search",
                     args_json := "q", result := some "hit",
                     status := "complete" }] }

/-- A session state before a turn with small token counters. -/
def preTurnSmall : TuxState :=
  { stats := { total_input_tokens := 7, total_output_tokens := 4 },
    agui_client := some () }

/-- A session state with a live connection and some prior counters, used to
exercise a turn aborted mid-stream. -/
def preAbortState : TuxState :=
  { stats := { messages := 5, tool_calls := 2 }, agui_client := some () }

/-- An event stream with two interleaved tool-call starts.  It satisfies the
ordering stated by the specification (args between that id's start and end)
yet the consumer attributes the args delta of id 1 to the most recently
started call, id 2. -/
def interleavedStream : List Event :=
  [ Event.toolCallStart (some "1") (some "alpha"),
    Event.toolCallStart (some "2") (some "beta"),
    Event.toolCallArgs (some "1") (some "X"),
    Event.toolCallEnd (some "1"),
    Event.toolCallEnd (some "2"),
    Event.runFinished ]

/-- A sequential one-call stream: start, two args deltas, end, result,
finished. -/
def sequentialStream : List Event :=
  [ Event.toolCallStart (some "7") (some "search"),
    Event.toolCallArgs (some "7") (some "ab"),
    Event.toolCallArgs (some "7") (some "cd"),
    Event.toolCallEnd (some "7"),
    Event.toolCallResult (some "7") (some "found"),
    Event.runFinished ]

/-! ### Auxiliary lemmas -/

theorem string_append_empty (s : String) : s ++ "" = s := by
  cases s with
  | mk data => show String.mk (data ++ []) = String.mk data
               rw [List.append_nil]

theorem string_empty_append (s : String) : "" ++ s = s := by
  cases s with
  | mk data => rfl

theorem listModify_length {α : Type} (l : List α) (n : Nat) (f : α → α) :
    (listModify l n f).length = l.length := by
  induction l generalizing n with
  | nil => rfl
  | cons a l ih =>
      cases n with
      | zero => rfl
      | succ m => simpa [listModify] using ih m

theorem listModify_id {α : Type} (l : List α) (n : Nat) (f : α → α)
    (h : ∀ a, f a = a) : listModify l n f = l := by
  induction l generalizing n with
  | nil => rfl
  | cons a l ih =>
      cases n with
      | zero => simp [listModify, h a]
      | succ m => simp [listModify, ih m]

theorem listModify_comp {α : Type} (l : List α) (n : Nat) (f g : α → α) :
    listModify (listModify l n f) n g = listModify l n (fun a => g (f a)) := by
  induction l generalizing n with
  | nil => rfl
  | cons a l ih =>
      cases n with
      | zero => rfl
      | succ m => simp [listModify, ih m]

theorem listModify_congr {α : Type} (l : List α) (n : Nat) (f g : α → α)
    (h : ∀ a, f a = g a) : listModify l n f = listModify l n g := by
  induction l generalizing n with
  | nil => rfl
  | cons a l ih =>
      cases n with
      | zero => simp [listModify, h a]
      | succ m => simp [listModify, ih m]

theorem listModify_append_last {α : Type} (l : List α) (a : α) (f : α → α) :
    listModify (l ++ [a]) l.length f = l ++ [f a] := by
  induction l with
  | nil => rfl
  | cons b l ih => simp [listModify, ih]

theorem setResultFirst_length (l : List ToolCallInfo) (tid res : String) :
    (setResultFirst l tid res).length = l.length := by
  induction l with
  | nil => rfl
  | cons tc l ih =>
      by_cases h : tc.tool_call_id = tid <;> simp [setResultFirst, h, ih]

theorem argsOf_append (i : String) (l₁ l₂ : List ToolCallInfo) :
    argsOf i (l₁ ++ l₂) = argsOf i l₁ ++ argsOf i l₂ := by
  simp [argsOf, List.filter_append]

theorem argsOf_cons (i : String) (tc : ToolCallInfo) (l : List ToolCallInfo) :
    argsOf i (tc :: l) =
      (if tc.tool_call_id = i then [tc.args_json] else []) ++ argsOf i l := by
  by_cases hi : tc.tool_call_id = i <;> simp [argsOf, List.filter_cons, hi]

theorem argsOf_setResultFirst (i : String) (l : List ToolCallInfo)
    (tid res : String) : argsOf i (setResultFirst l tid res) = argsOf i l := by
  induction l with
  | nil => rfl
  | cons tc l ih =>
      by_cases h : tc.tool_call_id = tid
      · simp [setResultFirst, h, argsOf_cons]
      · simp [setResultFirst, h, argsOf_cons, ih]

theorem argsOf_listModify (i : String) (l : List ToolCallInfo) (n : Nat)
    (f : ToolCallInfo → ToolCallInfo)
    (hid : ∀ r, (f r).tool_call_id = r.tool_call_id)
    (hargs : ∀ r, (f r).args_json = r.args_json) :
    argsOf i (listModify l n f) = argsOf i l := by
  induction l generalizing n with
  | nil => rfl
  | cons tc l ih =>
      cases n with
      | zero => simp [listModify, argsOf_cons, hid, hargs]
      | succ m => simp [listModify, argsOf_cons, ih m]

theorem runEventsB_append (ts : TurnState) (xs ys : List Event) :
    runEventsB ts (xs ++ ys) =
      if (runEventsB ts xs).2 then runEventsB ts xs
      else runEventsB (runEventsB ts xs).1 ys := by
  induction xs generalizing ts with
  | nil => simp [runEventsB]
  | cons e xs ih =>
      by_cases hb : (processEvent ts e).2
      · simp [runEventsB, hb]
      · simp [runEventsB, hb, ih]

theorem processEvent_stats_frame (ts : TurnState) (e : Event) :
    (processEvent ts e).1.stats.total_input_tokens = ts.stats.total_input_tokens ∧
    (processEvent ts e).1.stats.total_output_tokens = ts.stats.total_output_tokens ∧
    (processEvent ts e).1.stats.total_requests = ts.stats.total_requests ∧
    (processEvent ts e).1.stats.messages = ts.stats.messages := by
  cases e with
  | toolCallArgs i d => cases hc : ts.current <;> simp [processEvent, hc]
  | runError m => cases hc : ts.current <;> simp [processEvent, hc]
  | _ => simp [processEvent]

theorem runEventsB_stats_frame (evs : List Event) (ts : TurnState) :
    (runEventsB ts evs).1.stats.total_input_tokens = ts.stats.total_input_tokens ∧
    (runEventsB ts evs).1.stats.total_output_tokens = ts.stats.total_output_tokens ∧
    (runEventsB ts evs).1.stats.total_requests = ts.stats.total_requests ∧
    (runEventsB ts evs).1.stats.messages = ts.stats.messages := by
  induction evs generalizing ts with
  | nil => simp [runEventsB]
  | cons e evs ih =>
      have hpe := processEvent_stats_frame ts e
      by_cases hb : (processEvent ts e).2
      · simpa [runEventsB, hb] using hpe
      · have := ih (processEvent ts e).1
        simp only [runEventsB, hb, if_false, Bool.false_eq_true, ite_false]
        exact ⟨this.1.trans hpe.1, this.2.1.trans hpe.2.1,
               this.2.2.1.trans hpe.2.2.1, this.2.2.2.trans hpe.2.2.2⟩

theorem runEventsB_noBreak_counts (evs : List Event) (ts : TurnState)
    (h : (runEventsB ts evs).2 = false) :
    (runEventsB ts evs).1.stats.tool_calls = ts.stats.tool_calls + countStarts evs ∧
    (runEventsB ts evs).1.tool_calls.length = ts.tool_calls.length + countStarts evs := by
  induction evs generalizing ts with
  | nil => simp [runEventsB, countStarts]
  | cons e evs ih =>
      by_cases hb : (processEvent ts e).2
      · simp [runEventsB, hb] at h
      · rw [runEventsB, if_neg (by simp [hb])] at h ⊢
        obtain ⟨ih1, ih2⟩ := ih (processEvent ts e).1 h
        rw [ih1, ih2]
        cases e with
        | textMessageContent d => simp [processEvent, countStarts]
        | toolCallStart i n =>
            simp [processEvent, countStarts]
            omega
        | toolCallArgs i d =>
            cases hc : ts.current <;>
              simp [processEvent, hc, countStarts, listModify_length]
        | toolCallEnd i => simp [processEvent, countStarts]
        | toolCallResult i r =>
            simp [processEvent, countStarts, setResultFirst_length]
        | runFinished => simp [processEvent] at hb
        | runError m => simp [processEvent] at hb

theorem runEventsB_mid (i0 : String) (mid : List Event)
    (hmid : mid.all (midEvent i0) = true) :
    ∀ (ts : TurnState) (idx : Nat), ts.current = some idx →
      runEventsB ts mid =
        ({ ts with
             response_text := ts.response_text ++ textConcat mid,
             tool_calls := listModify ts.tool_calls idx
               (fun tc => { tc with args_json := tc.args_json ++ argsConcat mid }) },
         false) := by
  induction mid with
  | nil =>
      intro ts idx hc
      simp [runEventsB, textConcat, argsConcat, string_append_empty,
            listModify_id]
  | cons e mid ih =>
      intro ts idx hc
      simp only [List.all_cons, Bool.and_eq_true] at hmid
      obtain ⟨hme, hmid'⟩ := hmid
      cases e with
      | textMessageContent d =>
          rw [runEventsB]
          have step :
              processEvent ts (.textMessageContent d) =
                ({ ts with response_text := ts.response_text ++ d.getD "" }, false) := rfl
          rw [step]
          simp only [ite_false, Bool.false_eq_true]
          rw [ih hmid' _ idx (by simpa using hc)]
          simp [textConcat, argsConcat, String.append_assoc]
      | toolCallArgs j d =>
          rw [runEventsB]
          have step :
              processEvent ts (.toolCallArgs j d) =
                ({ ts with
                     tool_calls :=
                       listModify ts.tool_calls idx
                         (fun tc => { tc with args_json := tc.args_json ++ d.getD "" }) },
                 false) := by
            simp [processEvent, hc]
          rw [step]
          simp only [ite_false, Bool.false_eq_true]
          rw [ih hmid' _ idx (by simpa using hc)]
          simp only [textConcat, argsConcat, listModify_comp]
          rw [listModify_congr _ idx _
              (fun tc => { tc with args_json := tc.args_json ++ (d.getD "" ++ argsConcat mid) })
              (fun tc => by simp [String.append_assoc])]
      | toolCallStart j n => simp [midEvent] at hme
      | toolCallEnd j => simp [midEvent] at hme
      | toolCallResult j r => simp [midEvent] at hme
      | runFinished => simp [midEvent] at hme
      | runError m => simp [midEvent] at hme

theorem startIds_append (a b : List Event) :
    startIds (a ++ b) = startIds a ++ startIds b := by
  induction a with
  | nil => rfl
  | cons e a ih => cases e <;> simp [startIds, ih]

theorem deltasFor_append (i : String) (a b : List Event) :
    deltasFor i (a ++ b) = deltasFor i a ++ deltasFor i b := by
  induction a with
  | nil => simp [deltasFor, string_empty_append]
  | cons e a ih =>
      cases e with
      | toolCallArgs j d => simp [deltasFor, ih, String.append_assoc]
      | _ => simp [deltasFor, ih]

theorem startIds_nil_of_noTool (l : List Event)
    (h : l.all (fun e => !isStartEvent e && !isArgsEvent e) = true) :
    startIds l = [] := by
  induction l with
  | nil => rfl
  | cons e l ih =>
      simp only [List.all_cons, Bool.and_eq_true] at h
      cases e with
      | toolCallStart j n => simp [isStartEvent] at h
      | _ => exact ih h.2

theorem deltasFor_nil_of_noTool (i : String) (l : List Event)
    (h : l.all (fun e => !isStartEvent e && !isArgsEvent e) = true) :
    deltasFor i l = "" := by
  induction l with
  | nil => rfl
  | cons e l ih =>
      simp only [List.all_cons, Bool.and_eq_true] at h
      cases e with
      | toolCallArgs j d => simp [isArgsEvent] at h
      | _ => exact ih h.2

theorem startIds_mid (i0 : String) (mid : List Event)
    (hmid : mid.all (midEvent i0) = true) : startIds mid = [] := by
  induction mid with
  | nil => rfl
  | cons e mid ih =>
      simp only [List.all_cons, Bool.and_eq_true] at hmid
      cases e with
      | textMessageContent d => exact ih hmid.2
      | toolCallArgs j d => exact ih hmid.2
      | _ => simp [midEvent] at hmid

theorem deltasFor_mid_eq (i0 : String) (mid : List Event)
    (hmid : mid.all (midEvent i0) = true) : deltasFor i0 mid = argsConcat mid := by
  induction mid with
  | nil => rfl
  | cons e mid ih =>
      simp only [List.all_cons, Bool.and_eq_true] at hmid
      cases e with
      | textMessageContent d => simp [deltasFor, argsConcat, ih hmid.2]
      | toolCallArgs j d =>
          have hj : j.getD "" = i0 := by simpa [midEvent] using hmid.1
          simp [deltasFor, argsConcat, hj, ih hmid.2]
      | _ => simp [midEvent] at hmid

theorem deltasFor_mid_ne (i i0 : String) (mid : List Event)
    (hmid : mid.all (midEvent i0) = true) (hne : i ≠ i0) :
    deltasFor i mid = "" := by
  induction mid with
  | nil => rfl
  | cons e mid ih =>
      simp only [List.all_cons, Bool.and_eq_true] at hmid
      cases e with
      | textMessageContent d => simp [deltasFor, ih hmid.2]
      | toolCallArgs j d =>
          have hj : j.getD "" = i0 := by simpa [midEvent] using hmid.1
          have : ¬(j.getD "" = i) := by rw [hj]; exact fun he => hne he.symm
          simp [deltasFor, this, ih hmid.2, string_empty_append]
      | _ => simp [midEvent] at hmid

theorem deltasFor_not_started (es : List Event) (h : SeqStream es) :
    ∀ i : String, i ∉ startIds es → deltasFor i es = "" := by
  induction h with
  | nil => intro i _; rfl
  | text d es hseq ih => intro i hi; exact ih i hi
  | endEv j es hseq ih => intro i hi; exact ih i hi
  | resultEv j r es hseq ih => intro i hi; exact ih i hi
  | finishedEv es htail => intro i _; exact deltasFor_nil_of_noTool i es htail
  | errorEv m es htail => intro i _; exact deltasFor_nil_of_noTool i es htail
  | episode j n mid es hmid hfresh hseq ih =>
      intro i hi
      have hsi : startIds (Event.toolCallStart j n :: (mid ++ es)) =
          j.getD "" :: startIds es := by
        show j.getD "" :: startIds (mid ++ es) = _
        rw [startIds_append, startIds_mid _ mid hmid, List.nil_append]
      rw [hsi] at hi
      simp only [List.mem_cons, not_or] at hi
      show deltasFor i (mid ++ es) = ""
      rw [deltasFor_append, deltasFor_mid_ne i _ mid hmid hi.1, ih i hi.2,
          string_append_empty]

theorem seqStream_argsOf (es : List Event) (h : SeqStream es) :
    ∀ (ts : TurnState) (i : String),
      argsOf i (runEventsB ts es).1.tool_calls =
        argsOf i ts.tool_calls ++
          (if i ∈ startIds es then [deltasFor i es] else []) := by
  induction h with
  | nil => intro ts i; simp [runEventsB, startIds]
  | text d es hseq ih =>
      intro ts i
      have hrun : runEventsB ts (Event.textMessageContent d :: es) =
          runEventsB { ts with response_text := ts.response_text ++ d.getD "" } es := rfl
      rw [hrun]
      exact ih _ i
  | endEv j es hseq ih =>
      intro ts i
      have hrun : runEventsB ts (Event.toolCallEnd j :: es) = runEventsB ts es := rfl
      rw [hrun]
      exact ih ts i
  | resultEv j r es hseq ih =>
      intro ts i
      have hrun : runEventsB ts (Event.toolCallResult j r :: es) =
          runEventsB { ts with
              tool_calls := setResultFirst ts.tool_calls (j.getD "") (r.getD ""),
              current := none } es := rfl
      rw [hrun, ih _ i]
      simp only [argsOf_setResultFirst]
      rfl
  | finishedEv es htail =>
      intro ts i
      have hrun : runEventsB ts (Event.runFinished :: es) = (ts, true) := rfl
      have hsi : startIds (Event.runFinished :: es) = [] :=
        startIds_nil_of_noTool es htail
      rw [hrun, hsi]
      simp
  | errorEv m es htail =>
      intro ts i
      have hsi : startIds (Event.runError m :: es) = [] :=
        startIds_nil_of_noTool es htail
      cases hc : ts.current with
      | none =>
          have hrun : runEventsB ts (Event.runError m :: es) = (ts, true) := by
            simp [runEventsB, processEvent, hc]
          rw [hrun, hsi]
          simp
      | some idx =>
          have hrun : runEventsB ts (Event.runError m :: es) =
              ({ ts with
                   tool_calls :=
                     listModify ts.tool_calls idx
                       (fun tc => { tc with status := "error" }) },
               true) := by
            simp [runEventsB, processEvent, hc]
          rw [hrun, hsi]
          simp only [List.not_mem_nil, if_false]
          simp only [List.append_nil]
          exact argsOf_listModify i ts.tool_calls idx _ (fun r => rfl) (fun r => rfl)
  | episode j n mid es hmid hfresh hseq ih =>
      intro ts i
      have hstart : runEventsB ts (Event.toolCallStart j n :: (mid ++ es)) =
          runEventsB
            { ts with
                tool_calls := ts.tool_calls ++ [{ tool_call_id := j.getD "", tool_name := n.getD "tool" }],
                stats := { ts.stats with tool_calls := ts.stats.tool_calls + 1 },
                current := some ts.tool_calls.length }
            (mid ++ es) := rfl
      have hm := runEventsB_mid (j.getD "") mid hmid
        { ts with
            tool_calls := ts.tool_calls ++ [{ tool_call_id := j.getD "", tool_name := n.getD "tool" }],
            stats := { ts.stats with tool_calls := ts.stats.tool_calls + 1 },
            current := some ts.tool_calls.length }
        ts.tool_calls.length rfl
      rw [hstart, runEventsB_append, hm]
      simp only [Bool.false_eq_true, if_false]
      rw [ih _ i]
      have hsi : startIds (Event.toolCallStart j n :: (mid ++ es)) =
          j.getD "" :: startIds es := by
        show j.getD "" :: startIds (mid ++ es) = _
        rw [startIds_append, startIds_mid _ mid hmid, List.nil_append]
      have hdf : deltasFor i (Event.toolCallStart j n :: (mid ++ es)) =
          deltasFor i mid ++ deltasFor i es := by
        show deltasFor i (mid ++ es) = _
        exact deltasFor_append i mid es
      rw [hsi, hdf]
      simp only [listModify_append_last]
      rw [argsOf_append]
      by_cases hij : i = j.getD ""
      · subst hij
        rw [if_neg hfresh, if_pos (List.mem_cons_self _ _)]
        rw [deltasFor_mid_eq _ mid hmid,
            deltasFor_not_started es hseq _ hfresh, string_append_empty]
        simp [argsOf_cons, argsOf, string_empty_append]
      · have hne : ¬(j.getD "" = i) := fun he => hij he.symm
        rw [deltasFor_mid_ne i _ mid hmid hij, string_empty_append]
        simp [argsOf_cons, argsOf, hne, List.mem_cons, hij]

theorem lowerChar_ws (c : Char) : wsChar (lowerChar c) = wsChar c := by
  by_cases h : (65 ≤ c.toNat && c.toNat ≤ 90) = true
  · have hc : Char.ofNat c.toNat = c := Char.ofNat_toNat c
    rw [← hc]
    simp only [Bool.and_eq_true, decide_eq_true_eq] at h
    obtain ⟨h1, h2⟩ := h
    generalize c.toNat = n at h1 h2 ⊢
    interval_cases n <;> decide
  · have hid : lowerChar c = c := by simp [lowerChar, h]
    rw [hid]

theorem lowerChar_idem (c : Char) : lowerChar (lowerChar c) = lowerChar c := by
  by_cases h : (65 ≤ c.toNat && c.toNat ≤ 90) = true
  · have hc : Char.ofNat c.toNat = c := Char.ofNat_toNat c
    rw [← hc]
    simp only [Bool.and_eq_true, decide_eq_true_eq] at h
    obtain ⟨h1, h2⟩ := h
    generalize c.toNat = n at h1 h2 ⊢
    interval_cases n <;> decide
  · have hid : lowerChar c = c := by simp [lowerChar, h]
    rw [hid, hid]

theorem drop_one_map {α β : Type} (f : α → β) (l : List α) :
    (l.map f).drop 1 = (l.drop 1).map f := by
  cases l <;> rfl

theorem map_lower_idem (t : List Char) :
    (t.map lowerChar).map lowerChar = t.map lowerChar := by
  induction t with
  | nil => rfl
  | cons c t ih => simp [lowerChar_idem, ih]

theorem token_lower_comm (l : List Char) :
    (((l.map lowerChar).drop 1).dropWhile (fun c => wsChar c)).takeWhile
        (fun c => !wsChar c) =
      ((((l.drop 1).dropWhile (fun c => wsChar c)).takeWhile
        (fun c => !wsChar c)).map lowerChar) := by
  have hws : ((fun c => wsChar c) ∘ lowerChar) = fun c => wsChar c :=
    funext fun c => lowerChar_ws c
  have hnws : ((fun c => !wsChar c) ∘ lowerChar) = fun c => !wsChar c :=
    funext fun c => by simp [Function.comp, lowerChar_ws]
  rw [drop_one_map, List.dropWhile_map, hws, List.takeWhile_map, hnws]

theorem cmdTokenOf_strLower (line : String) :
    cmdTokenOf (strLower line) = strLower (cmdTokenOf line) :=
  congrArg String.mk (token_lower_comm line.data)

theorem strLower_idem (s : String) : strLower (strLower s) = strLower s :=
  congrArg String.mk (map_lower_idem s.data)

theorem resolveCommand_lower (reg : List (String × SlashCommand)) (line : String) :
    resolveCommand reg (strLower line) = resolveCommand reg line := by
  unfold resolveCommand
  rw [cmdTokenOf_strLower, strLower_idem]

theorem send_message_agui (st : TuxState) (cOk : Bool) (evs : List Event)
    (sOk : Bool) (fetch : Option Snapshot) :
    (send_message st cOk evs sOk fetch).agui_client =
      (if st.agui_client.isNone then some () else st.agui_client) := by
  cases fetch with
  | none =>
      by_cases h1 : (st.agui_client.isNone && !cOk) = true
      · simp [send_message, h1]
      · by_cases hb : (runEventsB (turnInit st) evs).2
        · simp [send_message, h1, hb]
        · by_cases hs : sOk
          · simp [send_message, h1, hb, hs]
          · simp [send_message, h1, hb, hs]
  | some d =>
      by_cases h1 : (st.agui_client.isNone && !cOk) = true
      · simp [send_message, h1]
      · by_cases hb : (runEventsB (turnInit st) evs).2
        · simp [send_message, h1, hb]
        · by_cases hs : sOk
          · simp [send_message, h1, hb, hs]
          · simp [send_message, h1, hb, hs]

/-! ### The claims -/

/-- C1, counterexample: with pre-turn `total_input_tokens = 100` and a turn
whose snapshot fetch fails, `send_message` leaves `total_input_tokens = 0`,
not the prior 100 — the claim that stats remain at prior values is false. -/
theorem claim1_counterexample :
    (send_message preTurnTokens true [Event.runFinished] true none).stats.total_input_tokens = 0 ∧
    preTurnTokens.stats.total_input_tokens = 100 := by
  constructor <;> decide

/-- C1 (amended): when the post-turn token-usage snapshot fetch fails on a
turn that was not aborted, the failure is silently swallowed but
`total_input_tokens` and `total_output_tokens` are set to 0 (the turn-local
initial values), not retained at their pre-turn values. -/
theorem claim1_amended (st : TuxState) (connectOk : Bool)
    (delivered : List Event) (streamOk : Bool)
    (h : turnAborted st connectOk delivered streamOk = false) :
    (send_message st connectOk delivered streamOk none).stats.total_input_tokens = 0 ∧
    (send_message st connectOk delivered streamOk none).stats.total_output_tokens = 0 := by
  simp only [turnAborted, Bool.or_eq_false_iff] at h
  obtain ⟨h1, h2⟩ := h
  constructor <;> simp [send_message, h1, h2]

/-- C1 witness: a concrete completed turn with a failed fetch. -/
theorem claim1_amended_witness :
    turnAborted preTurnTokens true [Event.runFinished] true = false ∧
    ((send_message preTurnTokens true [Event.runFinished] true none).stats.total_input_tokens = 0 ∧
     (send_message preTurnTokens true [Event.runFinished] true none).stats.total_output_tokens = 0) :=
  ⟨by decide, claim1_amended preTurnTokens true [Event.runFinished] true (by decide)⟩

/-- C2: the dispatch path never sends a handler's returned string.
`handle_command` awaits the handler, discards its return value, and reports
only a handled flag; an input line recognised as a command therefore sends
no message in that loop iteration, whatever the handler returns —
contradicting the documented contract `execute(tux) -> Optional[str]`
("returns optional next prompt") of the commands package and the
`/suggestions` flow built on it. -/
theorem claim2_dispatch_discards (reg : List (String × SlashCommand))
    (input : String) (h : startsSlash input = true) :
    sentMessages reg input = [] ∧ handle_command reg input = true := by
  have hne : ¬(input = "") := by
    intro he
    subst he
    simp [startsSlash] at h
  constructor
  · simp [sentMessages, routeInput, hne, h]
  · simp only [handle_command, h, Bool.not_true, Bool.false_eq_true, if_false]
    cases resolveCommand reg input <;> simp

/-- C2 witness: `/suggestions` against the registry of the commands package
(whose suggestions handler returns the picked suggestion text). -/
theorem claim2_dispatch_discards_witness :
    startsSlash "/suggestions" = true ∧
    (sentMessages (packageRegistry false false) "/suggestions" = [] ∧
     handle_command (packageRegistry false false) "/suggestions" = true) :=
  ⟨by decide,
   claim2_dispatch_discards (packageRegistry false false) "/suggestions" (by decide)⟩

/-- C3, counterexample: a turn aborted by a connection error does not leave
the retained tool-call list unchanged — `send_message` resets it to `[]`
before connecting (tux.py line 988). -/
theorem claim3_counterexample :
    ¬((send_message preTurnWithTools false [] true none).tool_calls =
        preTurnWithTools.tool_calls) := by
  decide

/-- C3 (amended): a turn aborted by a connection-level error leaves
`total_input_tokens`, `total_output_tokens` and `total_requests` unchanged
and increments `messages` by exactly one, but `stats.tool_calls` grows by
the number of tool-call-start events consumed before the error, and the
retained tool-call list is the (fresh) list of this turn's records — the
pre-turn list was discarded at turn start. -/
theorem claim3_amended (st : TuxState) (connectOk : Bool)
    (delivered : List Event) (streamOk : Bool) (fetch : Option Snapshot)
    (h : turnAborted st connectOk delivered streamOk = true) :
    (send_message st connectOk delivered streamOk fetch).stats.total_input_tokens = st.stats.total_input_tokens ∧
    (send_message st connectOk delivered streamOk fetch).stats.total_output_tokens = st.stats.total_output_tokens ∧
    (send_message st connectOk delivered streamOk fetch).stats.total_requests = st.stats.total_requests ∧
    (send_message st connectOk delivered streamOk fetch).stats.messages = st.stats.messages + 1 ∧
    (send_message st connectOk delivered streamOk fetch).stats.tool_calls =
      st.stats.tool_calls + countStarts (consumedEvents st connectOk delivered) ∧
    (send_message st connectOk delivered streamOk fetch).tool_calls.length =
      countStarts (consumedEvents st connectOk delivered) := by
  by_cases h1 : (st.agui_client.isNone && !connectOk) = true
  · refine ⟨?_, ?_, ?_, ?_, ?_, ?_⟩ <;>
      simp [send_message, consumedEvents, h1, countStarts]
  · have h2 : (!(runEventsB (turnInit st) delivered).2 && !streamOk) = true := by
      simpa [turnAborted, h1] using h
    have hbreak : (runEventsB (turnInit st) delivered).2 = false := by
      cases hx : (runEventsB (turnInit st) delivered).2
      · rfl
      · rw [hx] at h2
        simp at h2
    have hsok : streamOk = false := by
      cases hy : streamOk
      · rfl
      · rw [hy] at h2
        simp at h2
    obtain ⟨hc1, hc2⟩ := runEventsB_noBreak_counts delivered (turnInit st) hbreak
    have hfr := runEventsB_stats_frame delivered (turnInit st)
    simp only [turnInit] at hc1 hc2 hfr hbreak
    refine ⟨?_, ?_, ?_, ?_, ?_, ?_⟩ <;>
      simp [send_message, consumedEvents, h1, turnInit, hbreak, hsok, hc1, hc2,
            hfr.1, hfr.2.1, hfr.2.2.1, hfr.2.2.2]

/-- C3 witness: a turn that consumed one tool-call-start and then aborted
when the stream raised. -/
theorem claim3_amended_witness :
    turnAborted preAbortState true [Event.toolCallStart (some "a") (some "grep")] false = true ∧
    ((send_message preAbortState true [Event.toolCallStart (some "a") (some "grep")] false none).stats.total_input_tokens = preAbortState.stats.total_input_tokens ∧
     (send_message preAbortState true [Event.toolCallStart (some "a") (some "grep")] false none).stats.total_output_tokens = preAbortState.stats.total_output_tokens ∧
     (send_message preAbortState true [Event.toolCallStart (some "a") (some "grep")] false none).stats.total_requests = preAbortState.stats.total_requests ∧
     (send_message preAbortState true [Event.toolCallStart (some "a") (some "grep")] false none).stats.messages = preAbortState.stats.messages + 1 ∧
     (send_message preAbortState true [Event.toolCallStart (some "a") (some "grep")] false none).stats.tool_calls =
       preAbortState.stats.tool_calls + countStarts (consumedEvents preAbortState true [Event.toolCallStart (some "a") (some "grep")]) ∧
     (send_message preAbortState true [Event.toolCallStart (some "a") (some "grep")] false none).tool_calls.length =
       countStarts (consumedEvents preAbortState true [Event.toolCallStart (some "a") (some "grep")])) :=
  ⟨by decide,
   claim3_amended preAbortState true [Event.toolCallStart (some "a") (some "grep")] false none (by decide)⟩

/-- C4, counterexample: after a completed turn whose snapshot reports 5
input tokens, the counter drops from its pre-turn value 7 to 5 — it is
overwritten with the externally supplied absolute value, and in particular
is not the pre-turn value plus the turn's consumption. -/
theorem claim4_counterexample :
    (send_message preTurnSmall true [Event.runFinished] true
        (some { sumResponseInputTokens := 5, sumResponseOutputTokens := 3 })).stats.total_input_tokens <
      preTurnSmall.stats.total_input_tokens := by
  decide

/-- C4 (amended): after each completed turn, `total_input_tokens` and
`total_output_tokens` are overwritten with the snapshot's absolute
`sumResponseInputTokens` / `sumResponseOutputTokens` values, independent of
their pre-turn values (and set to 0 when the fetch fails, see C1). -/
theorem claim4_amended (st : TuxState) (connectOk : Bool)
    (delivered : List Event) (streamOk : Bool) (d : Snapshot)
    (h : turnAborted st connectOk delivered streamOk = false) :
    (send_message st connectOk delivered streamOk (some d)).stats.total_input_tokens = d.sumResponseInputTokens ∧
    (send_message st connectOk delivered streamOk (some d)).stats.total_output_tokens = d.sumResponseOutputTokens := by
  simp only [turnAborted, Bool.or_eq_false_iff] at h
  obtain ⟨h1, h2⟩ := h
  constructor <;> simp [send_message, h1, h2]

/-- C4 witness: a concrete completed turn overwritten by snapshot values. -/
theorem claim4_amended_witness :
    turnAborted preTurnSmall true [Event.runFinished] true = false ∧
    ((send_message preTurnSmall true [Event.runFinished] true
        (some { sumResponseInputTokens := 5, sumResponseOutputTokens := 3 })).stats.total_input_tokens = 5 ∧
     (send_message preTurnSmall true [Event.runFinished] true
        (some { sumResponseInputTokens := 5, sumResponseOutputTokens := 3 })).stats.total_output_tokens = 3) :=
  ⟨by decide,
   claim4_amended preTurnSmall true [Event.runFinished] true
     { sumResponseInputTokens := 5, sumResponseOutputTokens := 3 } (by decide)⟩

/-- C5, counterexample: the stream `interleavedStream` satisfies the
claim's ordering precondition (`claimOrdering`), yet the record of id "1"
ends with `args_json = ""` while the concatenation of its deltas is "X" —
the consumer appends deltas to the most recently started call, not to the
call named by the delta's id. -/
theorem claim5_counterexample :
    claimOrdering interleavedStream = true ∧
    argsOf "1" (runEventsB { response_text := "", tool_calls := [], stats := {}, current := none } interleavedStream).1.tool_calls = [""] ∧
    deltasFor "1" interleavedStream = "X" := by
  refine ⟨by decide, by decide, by decide⟩

/-- C5 (amended): for every turn whose stream is sequential — each call's
args deltas follow its start with only text deltas interspersed before any
other tool-call or terminal event, and started ids are distinct — the final
`args_json` of each started call's unique record equals the concatenation,
in arrival order, of all args-delta payloads for that id. -/
theorem claim5_amended (evs : List Event) (h : SeqStream evs)
    (stats : SessionStats) (i : String) (hi : i ∈ startIds evs) :
    argsOf i (runEventsB { response_text := "", tool_calls := [], stats := stats, current := none } evs).1.tool_calls = [deltasFor i evs] := by
  have hmain := seqStream_argsOf evs h
    { response_text := "", tool_calls := [], stats := stats, current := none } i
  rw [if_pos hi] at hmain
  simpa [argsOf] using hmain

/-- C5 witness: the sequential one-call stream accumulates "ab" ++ "cd". -/
theorem claim5_amended_witness :
    SeqStream sequentialStream ∧ "7" ∈ startIds sequentialStream ∧
    argsOf "7" (runEventsB { response_text := "", tool_calls := [], stats := {}, current := none } sequentialStream).1.tool_calls = [deltasFor "7" sequentialStream] := by
  have hs : SeqStream sequentialStream := by
    show SeqStream (Event.toolCallStart (some "7") (some "search") ::
      ([Event.toolCallArgs (some "7") (some "ab"),
        Event.toolCallArgs (some "7") (some "cd")] ++
       [Event.toolCallEnd (some "7"),
        Event.toolCallResult (some "7") (some "found"), Event.runFinished]))
    exact SeqStream.episode (some "7") (some "search")
      [Event.toolCallArgs (some "7") (some "ab"),
       Event.toolCallArgs (some "7") (some "cd")]
      [Event.toolCallEnd (some "7"),
       Event.toolCallResult (some "7") (some "found"), Event.runFinished]
      (by decide) (by decide)
      (SeqStream.endEv (some "7") _
        (SeqStream.resultEv (some "7") (some "found") _
          (SeqStream.finishedEv [] (by decide))))
  exact ⟨hs, by decide, claim5_amended sequentialStream hs {} "7" (by decide)⟩

/-- C6: a successful conversation-clear zeroes every `SessionStats` field
and nulls the connection handle, and the next `send_message` holds a
non-null handle. -/
theorem claim6_clear_resets_and_reconnects (st : TuxState) (cOk : Bool)
    (evs : List Event) (sOk : Bool) (fetch : Option Snapshot) :
    (cmd_clear st true).stats.total_input_tokens = 0 ∧
    (cmd_clear st true).stats.total_output_tokens = 0 ∧
    (cmd_clear st true).stats.total_requests = 0 ∧
    (cmd_clear st true).stats.messages = 0 ∧
    (cmd_clear st true).stats.tool_calls = 0 ∧
    (cmd_clear st true).agui_client = none ∧
    (send_message (cmd_clear st true) cOk evs sOk fetch).agui_client.isSome = true := by
  refine ⟨rfl, rfl, rfl, rfl, rfl, rfl, ?_⟩
  rw [send_message_agui]
  rfl

/-- C7: in the registry built by `_register_commands`, every alias resolves
to the same command object as its primary name (so `/quit`, `/q` and
`/exit` share one handler), and resolving an input line is invariant under
lower-casing the line — lookup is case-insensitive on the first
whitespace-delimited token. -/
theorem claim7_alias_transparent_case_insensitive :
    (∀ eggs jupyter : Bool,
        aliasOK (tuxCommands eggs jupyter) (tuxRegistry eggs jupyter) = true) ∧
    (∀ (eggs jupyter : Bool) (line : String),
        resolveCommand (tuxRegistry eggs jupyter) line =
          resolveCommand (tuxRegistry eggs jupyter) (strLower line)) := by
  constructor
  · decide
  · intro eggs jupyter line
    exact (resolveCommand_lower _ line).symm

/-- C8: when the server-side reset request fails, `_cmd_clear` returns with
the whole session state — stats, connection handle, tool calls, everything —
unchanged. -/
theorem claim8_clear_atomic_on_error (st : TuxState) : cmd_clear st false = st := rfl

/-- C9: `_cmd_clear` never touches the retained tool-call list (success or
failure), `_cmd_tools_last` still displays the pre-clear records, and the
next `send_message` is entirely independent of the prior list (it replaces
the list at turn start). -/
theorem claim9_clear_preserves_tool_calls (st : TuxState) (resetOk : Bool)
    (l' : List ToolCallInfo) (cOk : Bool) (evs : List Event) (sOk : Bool)
    (fetch : Option Snapshot) :
    (cmd_clear st resetOk).tool_calls = st.tool_calls ∧
    toolsLastView (cmd_clear st resetOk) = toolsLastView st ∧
    send_message { st with tool_calls := l' } cOk evs sOk fetch =
      send_message st cOk evs sOk fetch := by
  refine ⟨?_, ?_, ?_⟩
  · cases resetOk <;> rfl
  · cases resetOk <;> rfl
  · rfl

/-- C10: a `TOOL_CALL_ARGS` event arriving while no tool call is in flight
is silently dropped — the loop state (records, counters, buffers) is
unchanged and the loop does not terminate. -/
theorem claim10_args_without_inflight_noop (resp : String)
    (tcs : List ToolCallInfo) (stats : SessionStats) (i d : Option String) :
    processEvent { response_text := resp, tool_calls := tcs, stats := stats, current := none }
        (Event.toolCallArgs i d) =
      ({ response_text := resp, tool_calls := tcs, stats := stats, current := none }, false) := rfl

end CodeAI
